import Mathlib

/-!
# Verification of `lock/locker.h` (TinyWebServer)

The header wraps three POSIX primitives: a counting semaphore (`sem`), a mutex
(`locker`) and a condition variable (`cond`).  Every member function is one call
into the operating system followed by a comparison of the return code with `0`.

The embedding keeps the two sides apart:

* the wrappers are programs (`Prog`) that *issue* OS calls and continue with the
  return code they are handed, so they say nothing about what the OS does;
* an operating system is a step function (`OS`) that answers a call in a state,
  or does not answer it at all (the calling thread stays blocked);
* `exec` runs a program against an operating system and records the calls made.
-/

namespace Locker

/-! ## C data -/

/-- The address of an OS object (`sem_t`, `pthread_mutex_t`, `pthread_cond_t`). -/
abbrev Addr := Nat

/-- The C `struct timespec`: an absolute deadline. -/
structure timespec where
  tv_sec : Int
  tv_nsec : Int
deriving DecidableEq, Repr

/-- The range of the C type `int` (32 bits, two's complement). -/
def is_int (n : Int) : Prop := -2 ^ 31 ≤ n ∧ n < 2 ^ 31

instance (n : Int) : Decidable (is_int n) := by unfold is_int; infer_instance

/-- The implicit conversion of an `int` argument to an `unsigned int` parameter,
as happens to `num` in `sem_init(&m_sem, 0, num)`: reduction modulo `2^32`. -/
def to_unsigned (n : Int) : Nat := (n % 2 ^ 32).toNat

/-! ## OS calls -/

/-- The calls into the operating system that occur in `locker.h`, with their
arguments.  The attribute pointer of the two `pthread_*_init` calls is `NULL`
(`none`) in the source. -/
inductive OsCall
  | sem_init (s : Addr) (pshared : Int) (value : Nat)
  | sem_destroy (s : Addr)
  | sem_wait (s : Addr)
  | sem_post (s : Addr)
  | pthread_mutex_init (m : Addr) (attr : Option Addr)
  | pthread_mutex_destroy (m : Addr)
  | pthread_mutex_lock (m : Addr)
  | pthread_mutex_unlock (m : Addr)
  | pthread_cond_init (c : Addr) (attr : Option Addr)
  | pthread_cond_destroy (c : Addr)
  | pthread_cond_wait (c : Addr) (m : Addr)
  | pthread_cond_timedwait (c : Addr) (m : Addr) (t : timespec)
  | pthread_cond_signal (c : Addr)
  | pthread_cond_broadcast (c : Addr)
deriving DecidableEq, Repr

/-- Whether a call locks or unlocks a mutex on behalf of the caller. -/
def OsCall.is_mutex_lock_or_unlock : OsCall → Bool
  | .pthread_mutex_lock _ => true
  | .pthread_mutex_unlock _ => true
  | _ => false

/-! ## Programs -/

/-- A piece of C++ code as far as the OS sees it: it returns a value, lets a
`std::exception` escape, or issues an OS call and goes on with its `int` result. -/
inductive Prog (α : Type)
  | done (a : α)
  | throw_exception
  | call (c : OsCall) (k : Int → Prog α)

/-- Sequencing: an escaping exception skips the rest. -/
def Prog.bind {α β : Type} : Prog α → (α → Prog β) → Prog β
  | .done a, f => f a
  | .throw_exception, _ => .throw_exception
  | .call c k, f => .call c (fun r => (k r).bind f)

instance : Monad Prog where
  pure := Prog.done
  bind := Prog.bind

/-- Issue one OS call and return its result. -/
def os_call (c : OsCall) : Prog Int := .call c .done

/-! ## Running a program against an operating system -/

/-- An operating system over states `σ`: the answer to a call is a return code and
a new state; `none` means that the call does not return (the caller is blocked). -/
abbrev OS (σ : Type) := OsCall → σ → Option (Int × σ)

/-- How a run ends, with the OS state reached and the OS calls issued, in order. -/
inductive Outcome (σ α : Type)
  | returned (a : α) (s : σ) (trace : List OsCall)
  | thrown (s : σ) (trace : List OsCall)
  | blocked (s : σ) (trace : List OsCall)
deriving DecidableEq

/-- Put an earlier call in front of the trace of an outcome. -/
def Outcome.after_call {σ α : Type} (c : OsCall) : Outcome σ α → Outcome σ α
  | .returned a s t => .returned a s (c :: t)
  | .thrown s t => .thrown s (c :: t)
  | .blocked s t => .blocked s (c :: t)

/-- Put earlier calls in front of the trace of an outcome. -/
def Outcome.after_trace {σ α : Type} (t₀ : List OsCall) : Outcome σ α → Outcome σ α
  | .returned a s t => .returned a s (t₀ ++ t)
  | .thrown s t => .thrown s (t₀ ++ t)
  | .blocked s t => .blocked s (t₀ ++ t)

/-- The OS state at the end of a run. -/
def Outcome.state {σ α : Type} : Outcome σ α → σ
  | .returned _ s _ => s
  | .thrown s _ => s
  | .blocked s _ => s

/-- The OS calls issued during a run. -/
def Outcome.trace {σ α : Type} : Outcome σ α → List OsCall
  | .returned _ _ t => t
  | .thrown _ t => t
  | .blocked _ t => t

/-- Run a program from state `s`. -/
def exec {σ α : Type} (os : OS σ) : Prog α → σ → Outcome σ α
  | .done a, s => .returned a s []
  | .throw_exception, s => .thrown s []
  | .call c k, s =>
    match os c s with
    | none => .blocked s [c]
    | some (r, s') => (exec os (k r) s').after_call c

/-- The rest of a run that was suspended in its first OS call, from the moment
that call returns `r` and leaves the state `s`. -/
def exec_resumed {σ α : Type} (os : OS σ) : Prog α → Int → σ → Outcome σ α
  | .done a, _, s => .returned a s []
  | .throw_exception, _, s => .thrown s []
  | .call c k, r, s => (exec os (k r) s).after_call c

/-! ## `class sem` (locker.h 36-78) -/

/-- An instance of `class sem`: the address of its member `m_sem`. -/
structure sem where
  m_sem : Addr
deriving DecidableEq, Repr

/-- The constructor `sem()` (locker.h 39-52), building the object at `this`. -/
def sem.ctor (this : Addr) : Prog sem := do
  if (← os_call (.sem_init this 0 0)) != 0 then
    Prog.throw_exception
  return ⟨this⟩

/-- The constructor `sem(int num)` (locker.h 53-59). -/
def sem.ctor_int (this : Addr) (num : Int) : Prog sem := do
  if (← os_call (.sem_init this 0 (to_unsigned num))) != 0 then
    Prog.throw_exception
  return ⟨this⟩

/-- The destructor `~sem()` (locker.h 60-63). -/
def sem.dtor (self : sem) : Prog Unit := do
  let _ ← os_call (.sem_destroy self.m_sem)

/-- The member `bool wait()` (locker.h 65-68). -/
def sem.wait (self : sem) : Prog Bool := do
  return (← os_call (.sem_wait self.m_sem)) == 0

/-- The member `bool post()` (locker.h 71-74). -/
def sem.post (self : sem) : Prog Bool := do
  return (← os_call (.sem_post self.m_sem)) == 0

/-! ## `class locker` (locker.h 79-108) -/

/-- An instance of `class locker`: the address of its member `m_mutex`. -/
structure locker where
  m_mutex : Addr
deriving DecidableEq, Repr

/-- The constructor `locker()` (locker.h 82-88). -/
def locker.ctor (this : Addr) : Prog locker := do
  if (← os_call (.pthread_mutex_init this none)) != 0 then
    Prog.throw_exception
  return ⟨this⟩

/-- The destructor `~locker()` (locker.h 89-92). -/
def locker.dtor (self : locker) : Prog Unit := do
  let _ ← os_call (.pthread_mutex_destroy self.m_mutex)

/-- The member `bool lock()` (locker.h 93-96). -/
def locker.lock (self : locker) : Prog Bool := do
  return (← os_call (.pthread_mutex_lock self.m_mutex)) == 0

/-- The member `bool unlock()` (locker.h 97-100). -/
def locker.unlock (self : locker) : Prog Bool := do
  return (← os_call (.pthread_mutex_unlock self.m_mutex)) == 0

/-- The member `pthread_mutex_t *get()` (locker.h 101-104). -/
def locker.get (self : locker) : Addr := self.m_mutex

/-! ## `class cond` (locker.h 109-152) -/

/-- An instance of `class cond`: the address of its member `m_cond`. -/
structure cond where
  m_cond : Addr
deriving DecidableEq, Repr

/-- The constructor `cond()` (locker.h 112-119). -/
def cond.ctor (this : Addr) : Prog cond := do
  if (← os_call (.pthread_cond_init this none)) != 0 then
    Prog.throw_exception
  return ⟨this⟩

/-- The destructor `~cond()` (locker.h 120-123). -/
def cond.dtor (self : cond) : Prog Unit := do
  let _ ← os_call (.pthread_cond_destroy self.m_cond)

/-- The member `bool wait(pthread_mutex_t *m_mutex)` (locker.h 124-131). -/
def cond.wait (self : cond) (m_mutex : Addr) : Prog Bool := do
  let mut ret : Int := 0
  ret ← os_call (.pthread_cond_wait self.m_cond m_mutex)
  return ret == 0

/-- The member `bool timewait(pthread_mutex_t *m_mutex, struct timespec t)`
(locker.h 132-139); the OS call reads the deadline through `&t`. -/
def cond.timewait (self : cond) (m_mutex : Addr) (t : timespec) : Prog Bool := do
  let mut ret : Int := 0
  ret ← os_call (.pthread_cond_timedwait self.m_cond m_mutex t)
  return ret == 0

/-- The member `bool signal()` (locker.h 140-143). -/
def cond.signal (self : cond) : Prog Bool := do
  return (← os_call (.pthread_cond_signal self.m_cond)) == 0

/-- The member `bool broadcast()` (locker.h 144-147). -/
def cond.broadcast (self : cond) : Prog Bool := do
  return (← os_call (.pthread_cond_broadcast self.m_cond)) == 0

/-! ## The operations and constructions, enumerated -/

/-- One invocation of a wrapper operation on an instance, with its arguments. -/
inductive Operation
  | sem_wait (s : sem)
  | sem_post (s : sem)
  | locker_lock (l : locker)
  | locker_unlock (l : locker)
  | cond_wait (c : cond) (m_mutex : Addr)
  | cond_timewait (c : cond) (m_mutex : Addr) (t : timespec)
  | cond_signal (c : cond)
  | cond_broadcast (c : cond)
deriving DecidableEq, Repr

/-- The code that an invocation runs. -/
def Operation.prog : Operation → Prog Bool
  | .sem_wait s => s.wait
  | .sem_post s => s.post
  | .locker_lock l => l.lock
  | .locker_unlock l => l.unlock
  | .cond_wait c m => c.wait m
  | .cond_timewait c m t => c.timewait m t
  | .cond_signal c => c.signal
  | .cond_broadcast c => c.broadcast

/-- The OS primitive that corresponds to an invocation: the call of the same
kind on the OS object owned by the instance, with the caller's arguments. -/
def Operation.underlying : Operation → OsCall
  | .sem_wait s => .sem_wait s.m_sem
  | .sem_post s => .sem_post s.m_sem
  | .locker_lock l => .pthread_mutex_lock l.m_mutex
  | .locker_unlock l => .pthread_mutex_unlock l.m_mutex
  | .cond_wait c m => .pthread_cond_wait c.m_cond m
  | .cond_timewait c m t => .pthread_cond_timedwait c.m_cond m t
  | .cond_signal c => .pthread_cond_signal c.m_cond
  | .cond_broadcast c => .pthread_cond_broadcast c.m_cond

/-- An instance of one of the three classes. -/
inductive Instance
  | of_sem (s : sem)
  | of_locker (l : locker)
  | of_cond (c : cond)
deriving DecidableEq, Repr

/-- One construction: the constructor used, the address `this` of the object
being built, and the argument if there is one. -/
inductive Construction
  | sem_default (this : Addr)
  | sem_int (this : Addr) (num : Int)
  | locker (this : Addr)
  | cond (this : Addr)
deriving DecidableEq, Repr

/-- The code that a construction runs. -/
def Construction.prog : Construction → Prog Instance
  | .sem_default this => do return .of_sem (← sem.ctor this)
  | .sem_int this num => do return .of_sem (← sem.ctor_int this num)
  | .locker this => do return .of_locker (← locker.ctor this)
  | .cond this => do return .of_cond (← cond.ctor this)

/-- The OS initialisation call of a construction. -/
def Construction.init_call : Construction → OsCall
  | .sem_default this => .sem_init this 0 0
  | .sem_int this num => .sem_init this 0 (to_unsigned num)
  | .locker this => .pthread_mutex_init this none
  | .cond this => .pthread_cond_init this none

/-- The instance that a construction yields when it succeeds. -/
def Construction.built : Construction → Instance
  | .sem_default this => .of_sem ⟨this⟩
  | .sem_int this _ => .of_sem ⟨this⟩
  | .locker this => .of_locker ⟨this⟩
  | .cond this => .of_cond ⟨this⟩

/-- Whether a call destroys an OS object. -/
def OsCall.is_destroy : OsCall → Bool
  | .sem_destroy _ => true
  | .pthread_mutex_destroy _ => true
  | .pthread_cond_destroy _ => true
  | _ => false

/-! ## A scripted operating system -/

/-- An operating system that answers the calls, whichever they are, with the
return codes listed in its state, one after the other; when none is left the
call does not return. -/
def scripted : OS (List Int)
  | _, [] => none
  | _, r :: rest => some (r, rest)

/-! ## A model of the POSIX semaphore -/

/-- Modelled from the spec: the largest value a semaphore may hold, the constant
`SEM_VALUE_MAX` of `<limits.h>` that the header does not define; `2^31 - 1`. -/
def SEM_VALUE_MAX : Nat := 2 ^ 31 - 1

/-- Modelled from the spec: the `Timeout` return code of the timed wait, the
constant `ETIMEDOUT` of `<errno.h>` that the header does not define. -/
def ETIMEDOUT : Int := 110

/-- Modelled from the spec: the state of the OS semaphores, which the header only
reaches through `sem_*` calls: the count of the semaphore at each address, and
`none` where no semaphore is initialised. -/
abbrev SemState := Addr → Option Int

/-- Store a count (or the absence of a semaphore) at an address. -/
def SemState.set (w : SemState) (a : Addr) (v : Option Int) : SemState :=
  fun x => if x = a then v else w x

/-- Modelled from the spec: the OS semaphore behind `class sem`, of which the
header has only the calls.  `sem_init` sets the count and rejects a value above
`SEM_VALUE_MAX`; `sem_wait` blocks the caller while the count is 0 and otherwise
decrements it and returns 0; `sem_post` increments the count and returns 0, or
fails when the count is at `SEM_VALUE_MAX`; every call on an address without a
semaphore fails.  This is the answer at the moment of the call: what becomes of a
caller that is blocked (released by a `post()`, or interrupted) is in `sem_step`.
The calls on mutexes and condition variables are left to `other`. -/
def posix_sem (other : OS SemState) : OS SemState
  | .sem_init s _ value, w =>
    if value > SEM_VALUE_MAX then some (-1, w) else some (0, w.set s (some (value : Int)))
  | .sem_destroy s, w =>
    match w s with
    | none => some (-1, w)
    | some _ => some (0, w.set s none)
  | .sem_wait s, w =>
    match w s with
    | none => some (-1, w)
    | some c => if 0 < c then some (0, w.set s (some (c - 1))) else none
  | .sem_post s, w =>
    match w s with
    | none => some (-1, w)
    | some c => if (SEM_VALUE_MAX : Int) ≤ c then some (-1, w) else some (0, w.set s (some (c + 1)))
  | c, w => other c w

/-- An operating system without mutexes and condition variables: such calls do
not return. -/
def no_other : OS SemState := fun _ _ => none

/-- The state in which no semaphore is initialised. -/
def no_sems : SemState := fun _ => none

/-- The code `n` consecutive calls of `wait()` on one semaphore, nothing in between,
with the results in order. -/
def wait_n (s : sem) : Nat → Prog (List Bool)
  | 0 => pure []
  | n + 1 => do
    let b ← s.wait
    let bs ← wait_n s n
    return b :: bs

/-! ## The semaphore among several threads -/

/-- Modelled from the spec: the return code of a `sem_wait` whose caller is
interrupted while blocked (`-1`, with `errno` set to `EINTR`). -/
def SEM_WAIT_INTERRUPTED : Int := -1

/-- One return of `wait()`: its result and the count just before and just after
the OS call returned. -/
structure WaitReturn where
  result : Bool
  before : Option Int
  after : Option Int
deriving DecidableEq, Repr

/-- Modelled from the spec: one semaphore in use by several threads: the OS
state, the number of threads suspended in `wait()`, and the returns of `wait()`
so far, oldest first. -/
structure SemSys where
  os : SemState
  waiting : Nat
  returns : List WaitReturn

/-- What happens to the semaphore: a thread calls `wait()`, a thread calls
`post()`, or a thread suspended in `wait()` is interrupted. -/
inductive SemEvent
  | wait
  | post
  | interrupt
deriving DecidableEq, Repr

/-- Modelled from the spec: one event on the semaphore `s` (spec 4.1).
A `wait()` that the OS answers returns at once; one that it does not answer
leaves its caller suspended.  A `post()` that succeeds while a thread is suspended
wakes one: the suspended `sem_wait` is answered now, and that `wait()` returns.
An interruption makes one suspended `sem_wait` return `SEM_WAIT_INTERRUPTED`, and
that `wait()` returns with it.  The results are those of the code of `sem::wait`
and `sem::post`. -/
def sem_step (other : OS SemState) (s : sem) : SemEvent → SemSys → SemSys
  | .wait, sys =>
    match exec (posix_sem other) s.wait sys.os with
    | .returned b w _ =>
      ⟨w, sys.waiting, sys.returns ++ [⟨b, sys.os s.m_sem, w s.m_sem⟩]⟩
    | .blocked w _ => ⟨w, sys.waiting + 1, sys.returns⟩
    | .thrown w _ => ⟨w, sys.waiting, sys.returns⟩
  | .post, sys =>
    match exec (posix_sem other) s.post sys.os with
    | .returned true w _ =>
      if sys.waiting = 0 then ⟨w, sys.waiting, sys.returns⟩
      else
        match posix_sem other (.sem_wait s.m_sem) w with
        | none => ⟨w, sys.waiting, sys.returns⟩
        | some (r, w') =>
          match exec_resumed (posix_sem other) s.wait r w' with
          | .returned b w'' _ =>
            ⟨w'', sys.waiting - 1, sys.returns ++ [⟨b, w s.m_sem, w'' s.m_sem⟩]⟩
          | .blocked w'' _ => ⟨w'', sys.waiting, sys.returns⟩
          | .thrown w'' _ => ⟨w'', sys.waiting - 1, sys.returns⟩
    | .returned false w _ => ⟨w, sys.waiting, sys.returns⟩
    | .blocked w _ => ⟨w, sys.waiting, sys.returns⟩
    | .thrown w _ => ⟨w, sys.waiting, sys.returns⟩
  | .interrupt, sys =>
    if sys.waiting = 0 then sys
    else
      match exec_resumed (posix_sem other) s.wait SEM_WAIT_INTERRUPTED sys.os with
      | .returned b w _ =>
        ⟨w, sys.waiting - 1, sys.returns ++ [⟨b, sys.os s.m_sem, w s.m_sem⟩]⟩
      | .blocked w _ => ⟨w, sys.waiting, sys.returns⟩
      | .thrown w _ => ⟨w, sys.waiting - 1, sys.returns⟩

/-- The semaphore after a sequence of events. -/
def run_events (other : OS SemState) (s : sem) : List SemEvent → SemSys → SemSys
  | [], sys => sys
  | e :: rest, sys => run_events other s rest (sem_step other s e sys)

/-- A return of `wait()` that is in order: the count before it was `≥ 0`; a
success found it `> 0` and left it one lower; a failure left it as it was. -/
def WaitReturn.in_order (r : WaitReturn) : Prop :=
  ∃ cb : Int, r.before = some cb ∧ 0 ≤ cb ∧
    (r.result = true → 0 < cb ∧ r.after = some (cb - 1)) ∧
    (r.result = false → r.after = some cb)

/-- The state of affairs that every event preserves: the semaphore of `s` exists
with a count `≥ 0`, and every return of `wait()` so far was in order. -/
def SemSys.inv (s : sem) (sys : SemSys) : Prop :=
  (∃ c : Int, sys.os s.m_sem = some c ∧ 0 ≤ c) ∧ ∀ r ∈ sys.returns, r.in_order

/-! ## Basic facts about `exec` -/

theorem bind_eq {α β : Type} (p : Prog α) (f : α → Prog β) : (p >>= f) = p.bind f := rfl

theorem pure_eq {α : Type} (a : α) : (pure a : Prog α) = Prog.done a := rfl

/-- Running one OS call followed by a continuation. -/
theorem exec_os_call_bind {σ α : Type} (os : OS σ) (c : OsCall) (f : Int → Prog α) (w : σ) :
    exec os ((os_call c).bind f) w =
      match os c w with
      | none => .blocked w [c]
      | some (r, w') => (exec os (f r) w').after_call c := by
  simp [os_call, Prog.bind, exec]

/-- A wrapper of the shape `return os_call(...) == 0`. -/
theorem exec_rc_eq_zero {σ : Type} (os : OS σ) (c : OsCall) (w : σ) :
    exec os ((os_call c).bind (fun r => Prog.done (r == 0))) w =
      match os c w with
      | none => .blocked w [c]
      | some (r, w') => .returned (r == 0) w' [c] := by
  rw [exec_os_call_bind]
  cases os c w with
  | none => rfl
  | some p => rfl

theorem after_call_after_trace {σ α : Type} (c : OsCall) (t : List OsCall) (o : Outcome σ α) :
    (o.after_trace t).after_call c = o.after_trace (c :: t) := by
  cases o <;> rfl

theorem after_trace_nil {σ α : Type} (o : Outcome σ α) : o.after_trace [] = o := by
  cases o <;> rfl

/-- Running `p` and then `f` on its result. -/
theorem exec_bind {σ α β : Type} (os : OS σ) (p : Prog α) (f : α → Prog β) (w : σ) :
    exec os (p.bind f) w =
      match exec os p w with
      | .returned a w' t => (exec os (f a) w').after_trace t
      | .thrown w' t => .thrown w' t
      | .blocked w' t => .blocked w' t := by
  induction p generalizing w with
  | done a => simp [Prog.bind, exec, after_trace_nil]
  | throw_exception => simp [Prog.bind, exec]
  | call c k ih =>
    simp only [Prog.bind, exec]
    cases os c w with
    | none => rfl
    | some q =>
      obtain ⟨r, w'⟩ := q
      simp only [ih]
      cases exec os (k r) w' with
      | returned a s t => exact after_call_after_trace c t _
      | thrown s t => rfl
      | blocked s t => rfl

/-- A constructor of the shape `if (init(...) != 0) throw std::exception();`. -/
theorem exec_init_or_throw {σ α : Type} (os : OS σ) (c : OsCall) (a : α) (w : σ) :
    exec os ((os_call c).bind (fun r =>
        if (r != 0) = true then (Prog.throw_exception : Prog PUnit).bind (fun _ => Prog.done a)
        else (Prog.done PUnit.unit).bind (fun _ => Prog.done a))) w =
      match os c w with
      | none => .blocked w [c]
      | some (r, w') => if r = 0 then .returned a w' [c] else .thrown w' [c] := by
  rw [exec_os_call_bind]
  cases os c w with
  | none => rfl
  | some p =>
    obtain ⟨r, w'⟩ := p
    by_cases hr : r = 0
    · simp [hr, Prog.bind, exec, Outcome.after_call]
    · simp [hr, Prog.bind, exec, Outcome.after_call]

theorem exec_sem_ctor {σ : Type} (os : OS σ) (this : Addr) (w : σ) :
    exec os (sem.ctor this) w =
      match os (.sem_init this 0 0) w with
      | none => .blocked w [.sem_init this 0 0]
      | some (r, w') =>
        if r = 0 then .returned ⟨this⟩ w' [.sem_init this 0 0]
        else .thrown w' [.sem_init this 0 0] :=
  exec_init_or_throw os _ _ w

theorem exec_sem_ctor_int {σ : Type} (os : OS σ) (this : Addr) (num : Int) (w : σ) :
    exec os (sem.ctor_int this num) w =
      match os (.sem_init this 0 (to_unsigned num)) w with
      | none => .blocked w [.sem_init this 0 (to_unsigned num)]
      | some (r, w') =>
        if r = 0 then .returned ⟨this⟩ w' [.sem_init this 0 (to_unsigned num)]
        else .thrown w' [.sem_init this 0 (to_unsigned num)] :=
  exec_init_or_throw os _ _ w

theorem exec_locker_ctor {σ : Type} (os : OS σ) (this : Addr) (w : σ) :
    exec os (locker.ctor this) w =
      match os (.pthread_mutex_init this none) w with
      | none => .blocked w [.pthread_mutex_init this none]
      | some (r, w') =>
        if r = 0 then .returned ⟨this⟩ w' [.pthread_mutex_init this none]
        else .thrown w' [.pthread_mutex_init this none] :=
  exec_init_or_throw os _ _ w

theorem exec_cond_ctor {σ : Type} (os : OS σ) (this : Addr) (w : σ) :
    exec os (cond.ctor this) w =
      match os (.pthread_cond_init this none) w with
      | none => .blocked w [.pthread_cond_init this none]
      | some (r, w') =>
        if r = 0 then .returned ⟨this⟩ w' [.pthread_cond_init this none]
        else .thrown w' [.pthread_cond_init this none] :=
  exec_init_or_throw os _ _ w

/-- What every wrapper operation does, for any operating system. -/
theorem exec_operation {σ : Type} (os : OS σ) (op : Operation) (w : σ) :
    exec os op.prog w =
      match os op.underlying w with
      | none => .blocked w [op.underlying]
      | some (r, w') => .returned (r == 0) w' [op.underlying] := by
  cases op <;> exact exec_rc_eq_zero os _ w

/-- What every constructor does, for any operating system. -/
theorem exec_construction {σ : Type} (os : OS σ) (k : Construction) (w : σ) :
    exec os k.prog w =
      match os k.init_call w with
      | none => .blocked w [k.init_call]
      | some (r, w') =>
        if r = 0 then .returned k.built w' [k.init_call] else .thrown w' [k.init_call] := by
  cases k <;>
    simp only [Construction.prog, Construction.init_call, Construction.built, bind_eq, pure_eq,
      exec_bind, exec_sem_ctor, exec_sem_ctor_int, exec_locker_ctor, exec_cond_ctor] <;>
    (cases os _ w with
     | none => rfl
     | some q =>
       obtain ⟨r, w'⟩ := q
       by_cases hr : r = 0 <;> simp [hr, exec, Outcome.after_trace])

/-! ## Return codes become booleans -/

/-- C1: for each of sem::wait, sem::post, locker::lock, locker::unlock, cond::wait,
cond::signal and cond::broadcast (and cond::timewait as well), and for every return
code `r` that the underlying OS call gives, the operation returns, its result is
`true` exactly when `r = 0` and `false` for every non-zero `r`, and no exception
escapes. -/
theorem operation_true_iff_rc_zero {σ : Type} (os : OS σ) (op : Operation) (w w' : σ) (r : Int)
    (h : os op.underlying w = some (r, w')) :
    ∃ b : Bool, exec os op.prog w = .returned b w' [op.underlying] ∧
      (b = true ↔ r = 0) ∧ (r ≠ 0 → b = false) ∧
      ∀ s t, exec os op.prog w ≠ .thrown s t := by
  refine ⟨r == 0, ?_, ?_, ?_, ?_⟩
  · rw [exec_operation, h]
  · simp
  · intro hr; simp [hr]
  · intro s t; rw [exec_operation, h]; simp

theorem operation_true_iff_rc_zero_witness :
    scripted (Operation.locker_unlock ⟨64⟩).underlying [1, 0] = some (1, [0]) ∧
    ∃ b : Bool, exec scripted (Operation.locker_unlock ⟨64⟩).prog [1, 0] =
        .returned b [0] [(Operation.locker_unlock ⟨64⟩).underlying] ∧
      (b = true ↔ (1 : Int) = 0) ∧ ((1 : Int) ≠ 0 → b = false) ∧
      ∀ s t, exec scripted (Operation.locker_unlock ⟨64⟩).prog [1, 0] ≠ .thrown s t :=
  ⟨rfl, operation_true_iff_rc_zero scripted (.locker_unlock ⟨64⟩) [1, 0] [0] 1 rfl⟩

/-- C2: for each of the constructors `sem()`, `sem(int)`, `locker()` and `cond()`,
when the OS initialisation call returns `r`: an exception escapes exactly when
`r ≠ 0`; in that case the run yields no instance and the initialisation is the only
OS call made (no operation, no destroy); when `r = 0` the run returns the instance
at `this` and nothing is thrown. -/
theorem construction_throws_iff_init_fails {σ : Type} (os : OS σ) (k : Construction)
    (w w' : σ) (r : Int) (h : os k.init_call w = some (r, w')) :
    ((∃ s t, exec os k.prog w = .thrown s t) ↔ r ≠ 0) ∧
    (r ≠ 0 → exec os k.prog w = .thrown w' [k.init_call] ∧
      ∀ i s t, exec os k.prog w ≠ .returned i s t) ∧
    (r = 0 → exec os k.prog w = .returned k.built w' [k.init_call]) ∧
    (exec os k.prog w).trace = [k.init_call] ∧
    ∀ c ∈ (exec os k.prog w).trace, c.is_destroy = false := by
  have hex := exec_construction os k w
  rw [h] at hex
  by_cases hr : r = 0
  · simp only [hr, if_true] at hex
    rw [hex]
    refine ⟨by simp [hr], fun h0 => absurd hr h0, fun _ => rfl, rfl, ?_⟩
    intro c hc
    simp only [Outcome.trace, List.mem_singleton] at hc
    subst hc
    cases k <;> rfl
  · simp only [hr, if_false] at hex
    rw [hex]
    refine ⟨by simp [hr], fun _ => ⟨rfl, by simp⟩, fun h0 => absurd h0 hr, rfl, ?_⟩
    intro c hc
    simp only [Outcome.trace, List.mem_singleton] at hc
    subst hc
    cases k <;> rfl

theorem construction_throws_iff_init_fails_witness :
    scripted (Construction.sem_int 8 3).init_call [-1] = some (-1, []) ∧
    (((∃ s t, exec scripted (Construction.sem_int 8 3).prog [-1] = .thrown s t) ↔ (-1 : Int) ≠ 0) ∧
    ((-1 : Int) ≠ 0 →
      exec scripted (Construction.sem_int 8 3).prog [-1] =
        .thrown [] [(Construction.sem_int 8 3).init_call] ∧
      ∀ i s t, exec scripted (Construction.sem_int 8 3).prog [-1] ≠ .returned i s t) ∧
    ((-1 : Int) = 0 →
      exec scripted (Construction.sem_int 8 3).prog [-1] =
        .returned (Construction.sem_int 8 3).built [] [(Construction.sem_int 8 3).init_call]) ∧
    (exec scripted (Construction.sem_int 8 3).prog [-1]).trace =
      [(Construction.sem_int 8 3).init_call] ∧
    ∀ c ∈ (exec scripted (Construction.sem_int 8 3).prog [-1]).trace, c.is_destroy = false) :=
  ⟨rfl, construction_throws_iff_init_fails scripted (.sem_int 8 3) [-1] [] (-1) rfl⟩

/-- C4: when the underlying timed wait returns `r`, cond::timewait returns `true`
exactly when `r = 0`; when it returns `ETIMEDOUT`, cond::timewait returns `false`,
and that is also its result for every other non-zero `r`, so that the results for
two failing return codes are equal. -/
theorem timewait_true_iff_rc_zero {σ : Type} (os : OS σ) (c : cond) (m_mutex : Addr)
    (t : timespec) (w w' wt wt' : σ) (r : Int)
    (h : os (.pthread_cond_timedwait c.m_cond m_mutex t) w = some (r, w'))
    (ht : os (.pthread_cond_timedwait c.m_cond m_mutex t) wt = some (ETIMEDOUT, wt')) :
    ∃ b bt : Bool,
      exec os (c.timewait m_mutex t) w =
        .returned b w' [.pthread_cond_timedwait c.m_cond m_mutex t] ∧
      exec os (c.timewait m_mutex t) wt =
        .returned bt wt' [.pthread_cond_timedwait c.m_cond m_mutex t] ∧
      (b = true ↔ r = 0) ∧ bt = false ∧ (r ≠ 0 → b = bt) := by
  have e1 := exec_operation os (.cond_timewait c m_mutex t) w
  have e2 := exec_operation os (.cond_timewait c m_mutex t) wt
  simp only [Operation.prog, Operation.underlying] at e1 e2
  rw [h] at e1
  rw [ht] at e2
  refine ⟨r == 0, ETIMEDOUT == 0, e1, e2, by simp, by decide, ?_⟩
  intro hr
  have : (ETIMEDOUT == 0) = false := by decide
  rw [this]
  simp [hr]

theorem timewait_true_iff_rc_zero_witness :
    scripted (.pthread_cond_timedwait (cond.mk 16).m_cond 32 ⟨5, 0⟩) [22] = some (22, []) ∧
    scripted (.pthread_cond_timedwait (cond.mk 16).m_cond 32 ⟨5, 0⟩) [110, 0] =
      some (ETIMEDOUT, [0]) ∧
    ∃ b bt : Bool,
      exec scripted ((cond.mk 16).timewait 32 ⟨5, 0⟩) [22] =
        .returned b [] [.pthread_cond_timedwait (cond.mk 16).m_cond 32 ⟨5, 0⟩] ∧
      exec scripted ((cond.mk 16).timewait 32 ⟨5, 0⟩) [110, 0] =
        .returned bt [0] [.pthread_cond_timedwait (cond.mk 16).m_cond 32 ⟨5, 0⟩] ∧
      (b = true ↔ (22 : Int) = 0) ∧ bt = false ∧ ((22 : Int) ≠ 0 → b = bt) :=
  ⟨rfl, rfl, timewait_true_iff_rc_zero scripted ⟨16⟩ 32 ⟨5, 0⟩ [22] [] [110, 0] [0] 22 rfl rfl⟩

/-- The calls issued by a wrapper operation, for any operating system. -/
theorem trace_operation {σ : Type} (os : OS σ) (op : Operation) (w : σ) :
    (exec os op.prog w).trace = [op.underlying] := by
  rw [exec_operation]
  cases os op.underlying w with
  | none => rfl
  | some q => rfl

/-- C9: every invocation of sem::wait/post, locker::lock/unlock and
cond::wait/timewait/signal/broadcast issues exactly one OS call, the corresponding
primitive on the instance's own OS object, whatever the OS answers (any return code,
or no return); cond::wait and cond::timewait hand the caller's lock handle (and
deadline) to that call as received, and issue no mutex lock or unlock. -/
theorem operation_issues_exactly_one_call {σ : Type} (os : OS σ) (op : Operation) (w : σ) :
    (exec os op.prog w).trace = [op.underlying] ∧
    (exec os op.prog w).trace.length = 1 ∧
    (∀ (c : cond) (l : locker),
      (exec os (c.wait l.get) w).trace = [.pthread_cond_wait c.m_cond l.m_mutex] ∧
      ∀ call ∈ (exec os (c.wait l.get) w).trace, call.is_mutex_lock_or_unlock = false) ∧
    (∀ (c : cond) (l : locker) (t : timespec),
      (exec os (c.timewait l.get t) w).trace = [.pthread_cond_timedwait c.m_cond l.m_mutex t] ∧
      ∀ call ∈ (exec os (c.timewait l.get t) w).trace, call.is_mutex_lock_or_unlock = false) := by
  refine ⟨trace_operation os op w, by rw [trace_operation]; rfl, ?_, ?_⟩
  · intro c l
    have ht := trace_operation os (.cond_wait c l.get) w
    simp only [Operation.prog, Operation.underlying] at ht
    rw [ht]
    refine ⟨rfl, ?_⟩
    intro call hc
    simp only [List.mem_singleton] at hc
    subst hc
    rfl
  · intro c l t
    have ht := trace_operation os (.cond_timewait c l.get t) w
    simp only [Operation.prog, Operation.underlying] at ht
    rw [ht]
    refine ⟨rfl, ?_⟩
    intro call hc
    simp only [List.mem_singleton] at hc
    subst hc
    rfl

/-! ## The semaphore model -/

theorem set_same (w : SemState) (a : Addr) (v : Option Int) : (w.set a v) a = v := by
  simp [SemState.set]

theorem set_set (w : SemState) (a : Addr) (v v' : Option Int) :
    (w.set a v).set a v' = w.set a v' := by
  funext x
  by_cases hx : x = a <;> simp [SemState.set, hx]

theorem set_self (w : SemState) (a : Addr) (v : Option Int) (h : w a = v) : w.set a v = w := by
  funext x
  by_cases hx : x = a
  · simp [SemState.set, hx, h]
  · simp [SemState.set, hx]

theorem to_unsigned_of_nonneg (n : Int) (h0 : 0 ≤ n) (h : is_int n) :
    to_unsigned n = n.toNat ∧ n.toNat ≤ SEM_VALUE_MAX := by
  obtain ⟨_, h2⟩ := h
  have hmod : n % 2 ^ 32 = n := Int.emod_eq_of_lt h0 (by omega)
  refine ⟨by unfold to_unsigned; rw [hmod], ?_⟩
  have : SEM_VALUE_MAX = 2147483647 := by decide
  omega

theorem to_unsigned_of_neg (n : Int) (h0 : n < 0) (h : is_int n) :
    (to_unsigned n : Int) = n + 2 ^ 32 := by
  obtain ⟨h1, _⟩ := h
  have hmod : n % 2 ^ 32 = n + 2 ^ 32 := by
    have h3 : (n + 2 ^ 32) % 2 ^ 32 = n + 2 ^ 32 := Int.emod_eq_of_lt (by omega) (by omega)
    rw [← h3]
    simp
  unfold to_unsigned
  rw [hmod]
  exact Int.toNat_of_nonneg (by omega)

/-- In the model, `wait()` on a positive count takes one unit and succeeds. -/
theorem exec_wait_pos (other : OS SemState) (s : sem) (w : SemState) (c : Int)
    (hw : w s.m_sem = some c) (hc : 0 < c) :
    exec (posix_sem other) s.wait w =
      .returned true (w.set s.m_sem (some (c - 1))) [.sem_wait s.m_sem] := by
  have e := exec_operation (posix_sem other) (.sem_wait s) w
  simp only [Operation.prog, Operation.underlying] at e
  rw [e]
  simp [posix_sem, hw, hc]

/-- In the model, `wait()` on a count that is not positive does not return. -/
theorem exec_wait_blocks (other : OS SemState) (s : sem) (w : SemState) (c : Int)
    (hw : w s.m_sem = some c) (hc : c ≤ 0) :
    exec (posix_sem other) s.wait w = .blocked w [.sem_wait s.m_sem] := by
  have e := exec_operation (posix_sem other) (.sem_wait s) w
  simp only [Operation.prog, Operation.underlying] at e
  rw [e]
  have : ¬ 0 < c := by omega
  simp [posix_sem, hw, this]

/-- In the model, what `post()` does on an initialised semaphore. -/
theorem exec_post (other : OS SemState) (s : sem) (w : SemState) (c : Int)
    (hw : w s.m_sem = some c) :
    exec (posix_sem other) s.post w =
      if (SEM_VALUE_MAX : Int) ≤ c then .returned false w [.sem_post s.m_sem]
      else .returned true (w.set s.m_sem (some (c + 1))) [.sem_post s.m_sem] := by
  have e := exec_operation (posix_sem other) (.sem_post s) w
  simp only [Operation.prog, Operation.underlying] at e
  rw [e]
  by_cases hc : (SEM_VALUE_MAX : Int) ≤ c <;> simp [posix_sem, hw, hc]

theorem wait_n_succ (s : sem) (n : Nat) :
    wait_n s (n + 1) =
      s.wait.bind (fun b => (wait_n s n).bind (fun bs => Prog.done (b :: bs))) := rfl

/-- In the model, `n` waits on a count of at least `n` all succeed. -/
theorem exec_wait_n (other : OS SemState) (s : sem) (n : Nat) (w : SemState) (c : Int)
    (hw : w s.m_sem = some c) (hn : (n : Int) ≤ c) :
    exec (posix_sem other) (wait_n s n) w =
      .returned (List.replicate n true) (w.set s.m_sem (some (c - n)))
        (List.replicate n (.sem_wait s.m_sem)) := by
  induction n generalizing w c with
  | zero =>
    simp only [wait_n, pure_eq, exec, List.replicate]
    rw [set_self]
    simpa using hw
  | succ n ih =>
    rw [wait_n_succ, exec_bind, exec_wait_pos other s w c hw (by omega)]
    simp only
    rw [exec_bind, ih (w.set s.m_sem (some (c - 1))) (c - 1) (set_same _ _ _) (by omega)]
    simp only [exec, Outcome.after_trace, set_set, List.replicate, List.append_nil,
      List.singleton_append]
    have : c - 1 - (n : Int) = c - ((n + 1 : Nat) : Int) := by push_cast; ring
    rw [this]

/-- In the model, with a count `c ≥ 0`, the wait number `c + 1` does not return. -/
theorem exec_wait_n_blocks (other : OS SemState) (s : sem) (n : Nat) (w : SemState)
    (hw : w s.m_sem = some (n : Int)) :
    exec (posix_sem other) (wait_n s (n + 1)) w =
      .blocked (w.set s.m_sem (some 0)) (List.replicate (n + 1) (.sem_wait s.m_sem)) := by
  induction n generalizing w with
  | zero =>
    rw [wait_n_succ, exec_bind, exec_wait_blocks other s w 0 (by simpa using hw) (le_refl _)]
    simp only [List.replicate]
    rw [set_self]
    simpa using hw
  | succ n ih =>
    rw [wait_n_succ, exec_bind, exec_wait_pos other s w _ hw (by omega)]
    simp only
    rw [exec_bind, ih (w.set s.m_sem (some (((n + 1 : Nat) : Int) - 1)))
      (by rw [set_same]; push_cast; simp)]
    simp only [Outcome.after_trace, set_set, List.replicate, List.singleton_append]

/-- In the model, `sem(num)` with a non-negative `num` yields a semaphore of count `num`. -/
theorem exec_ctor_int_nonneg (other : OS SemState) (this : Addr) (num : Int) (w : SemState)
    (h0 : 0 ≤ num) (h : is_int num) :
    exec (posix_sem other) (sem.ctor_int this num) w =
      .returned ⟨this⟩ (w.set this (some num)) [.sem_init this 0 num.toNat] := by
  obtain ⟨hu, hmax⟩ := to_unsigned_of_nonneg num h0 h
  rw [exec_sem_ctor_int, hu]
  have : ¬ SEM_VALUE_MAX < num.toNat := by omega
  simp [posix_sem, this, Int.toNat_of_nonneg h0]

/-- C3: for every non-negative `int` N, `sem(N)` constructs a semaphore on which
every run of `n ≤ N` immediate `wait()` calls returns, each call with success, and
in a run of `N + 1` such calls with no `post()` the last one does not return. -/
theorem sem_permits_exactly_n_waits (other : OS SemState) (this : Addr) (N : Int)
    (w0 : SemState) (h_nonneg : 0 ≤ N) (h_int : is_int N) :
    ∃ w1 : SemState,
      exec (posix_sem other) (sem.ctor_int this N) w0 =
        .returned ⟨this⟩ w1 [.sem_init this 0 N.toNat] ∧
      w1 this = some N ∧
      (∀ n : Nat, (n : Int) ≤ N → ∃ w2 : SemState,
        exec (posix_sem other) (wait_n ⟨this⟩ n) w1 =
          .returned (List.replicate n true) w2 (List.replicate n (.sem_wait this)) ∧
        w2 this = some (N - n)) ∧
      ∃ w3 : SemState,
        exec (posix_sem other) (wait_n ⟨this⟩ (N.toNat + 1)) w1 =
          .blocked w3 (List.replicate (N.toNat + 1) (.sem_wait this)) ∧
        w3 this = some 0 := by
  refine ⟨w0.set this (some N), exec_ctor_int_nonneg other this N w0 h_nonneg h_int,
    set_same _ _ _, ?_, ?_⟩
  · intro n hn
    exact ⟨_, exec_wait_n other ⟨this⟩ n _ N (set_same _ _ _) hn, set_same _ _ _⟩
  · refine ⟨_, exec_wait_n_blocks other ⟨this⟩ N.toNat _ ?_, set_same _ _ _⟩
    rw [set_same, Int.toNat_of_nonneg h_nonneg]

theorem sem_permits_exactly_n_waits_witness :
    (0 : Int) ≤ 2 ∧ is_int 2 ∧
    ∃ w1 : SemState,
      exec (posix_sem no_other) (sem.ctor_int 8 2) no_sems =
        .returned ⟨8⟩ w1 [.sem_init 8 0 (2 : Int).toNat] ∧
      w1 8 = some 2 ∧
      (∀ n : Nat, (n : Int) ≤ 2 → ∃ w2 : SemState,
        exec (posix_sem no_other) (wait_n ⟨8⟩ n) w1 =
          .returned (List.replicate n true) w2 (List.replicate n (.sem_wait 8)) ∧
        w2 8 = some ((2 : Int) - (n : Int))) ∧
      ∃ w3 : SemState,
        exec (posix_sem no_other) (wait_n ⟨8⟩ ((2 : Int).toNat + 1)) w1 =
          .blocked w3 (List.replicate ((2 : Int).toNat + 1) (.sem_wait 8)) ∧
        w3 8 = some 0 :=
  ⟨by decide, by decide,
    sem_permits_exactly_n_waits no_other 8 2 no_sems (by decide) (by decide)⟩

/-- C6: in a semaphore state with count `c ≥ 0`, a `post()` that succeeds leaves the
count `c + 1`: before it the wait number `c + 1` does not return, after it `c + 1`
waits return with success and the wait number `c + 2` does not return; a `wait()`
right after the `post()` succeeds and puts the count back to `c`; from `c = 0` a
further immediate `wait()` does not return. -/
theorem post_allows_one_more_wait (other : OS SemState) (s : sem) (w w1 : SemState) (c : Int)
    (t : List OsCall) (h_nonneg : 0 ≤ c) (h_count : w s.m_sem = some c)
    (h_post : exec (posix_sem other) s.post w = .returned true w1 t) :
    w1 s.m_sem = some (c + 1) ∧
    (∃ w' : SemState, exec (posix_sem other) (wait_n s (c.toNat + 1)) w =
      .blocked w' (List.replicate (c.toNat + 1) (.sem_wait s.m_sem))) ∧
    (∃ w' : SemState, exec (posix_sem other) (wait_n s (c.toNat + 1)) w1 =
      .returned (List.replicate (c.toNat + 1) true) w'
        (List.replicate (c.toNat + 1) (.sem_wait s.m_sem))) ∧
    (∃ w' : SemState, exec (posix_sem other) (wait_n s (c.toNat + 2)) w1 =
      .blocked w' (List.replicate (c.toNat + 2) (.sem_wait s.m_sem))) ∧
    ∃ w2 : SemState,
      exec (posix_sem other) s.wait w1 = .returned true w2 [.sem_wait s.m_sem] ∧
      w2 s.m_sem = some c ∧
      (c = 0 → exec (posix_sem other) s.wait w2 = .blocked w2 [.sem_wait s.m_sem]) := by
  rw [exec_post other s w c h_count] at h_post
  by_cases hmax : (SEM_VALUE_MAX : Int) ≤ c
  · simp [hmax] at h_post
  · simp only [hmax, if_false, Outcome.returned.injEq, true_and] at h_post
    obtain ⟨hw1, _⟩ := h_post
    have hc1 : w1 s.m_sem = some (c + 1) := by rw [← hw1, set_same]
    have hcn : ((c.toNat : Nat) : Int) = c := Int.toNat_of_nonneg h_nonneg
    refine ⟨hc1, ⟨_, exec_wait_n_blocks other s c.toNat w (by rw [hcn]; exact h_count)⟩,
      ⟨_, exec_wait_n other s (c.toNat + 1) w1 (c + 1) hc1 (by push_cast; omega)⟩,
      ⟨_, exec_wait_n_blocks other s (c.toNat + 1) w1 (by push_cast; rw [hcn]; exact hc1)⟩,
      ⟨_, exec_wait_pos other s w1 (c + 1) hc1 (by omega), by rw [set_same]; simp, ?_⟩⟩
    intro h0
    exact exec_wait_blocks other s _ (c + 1 - 1) (set_same _ _ _) (by omega)

theorem post_allows_one_more_wait_witness :
    (0 : Int) ≤ 0 ∧ (no_sems.set 8 (some 0)) (sem.mk 8).m_sem = some 0 ∧
    exec (posix_sem no_other) (sem.mk 8).post (no_sems.set 8 (some 0)) =
      .returned true ((no_sems.set 8 (some 0)).set 8 (some (0 + 1))) [.sem_post 8] ∧
    ((no_sems.set 8 (some 0)).set 8 (some (0 + 1)) (sem.mk 8).m_sem = some (0 + 1) ∧
    (∃ w' : SemState,
      exec (posix_sem no_other) (wait_n ⟨8⟩ ((0 : Int).toNat + 1)) (no_sems.set 8 (some 0)) =
        .blocked w' (List.replicate ((0 : Int).toNat + 1) (.sem_wait (sem.mk 8).m_sem))) ∧
    (∃ w' : SemState,
      exec (posix_sem no_other) (wait_n ⟨8⟩ ((0 : Int).toNat + 1))
          ((no_sems.set 8 (some 0)).set 8 (some (0 + 1))) =
        .returned (List.replicate ((0 : Int).toNat + 1) true) w'
          (List.replicate ((0 : Int).toNat + 1) (.sem_wait (sem.mk 8).m_sem))) ∧
    (∃ w' : SemState,
      exec (posix_sem no_other) (wait_n ⟨8⟩ ((0 : Int).toNat + 2))
          ((no_sems.set 8 (some 0)).set 8 (some (0 + 1))) =
        .blocked w' (List.replicate ((0 : Int).toNat + 2) (.sem_wait (sem.mk 8).m_sem))) ∧
    ∃ w2 : SemState,
      exec (posix_sem no_other) (sem.mk 8).wait ((no_sems.set 8 (some 0)).set 8 (some (0 + 1))) =
        .returned true w2 [.sem_wait (sem.mk 8).m_sem] ∧
      w2 (sem.mk 8).m_sem = some 0 ∧
      ((0 : Int) = 0 →
        exec (posix_sem no_other) (sem.mk 8).wait w2 = .blocked w2 [.sem_wait (sem.mk 8).m_sem])) :=
  ⟨by decide, rfl, rfl,
    post_allows_one_more_wait no_other ⟨8⟩ (no_sems.set 8 (some 0))
      ((no_sems.set 8 (some 0)).set 8 (some (0 + 1))) 0 [.sem_post 8] (by decide) rfl rfl⟩

/-- In the model, what `sem_init` answers. -/
theorem sem_init_result (other : OS SemState) (this : Addr) (pshared : Int) (value : Nat)
    (w : SemState) :
    posix_sem other (.sem_init this pshared value) w =
      if SEM_VALUE_MAX < value then some (-1, w)
      else some (0, w.set this (some (value : Int))) := rfl

/-- In the model, a construction of a `sem` that returns leaves a count `≥ 0` at the
address of the instance. -/
theorem count_after_ctor (other : OS SemState) (this : Addr) (num : Int) (p : Prog sem)
    (w0 w1 : SemState) (s : sem) (t : List OsCall)
    (h_ctor : p = sem.ctor this ∨ p = sem.ctor_int this num)
    (h : exec (posix_sem other) p w0 = .returned s w1 t) :
    ∃ c : Int, w1 s.m_sem = some c ∧ 0 ≤ c := by
  rcases h_ctor with rfl | rfl
  · rw [exec_sem_ctor, sem_init_result] at h
    by_cases hv : SEM_VALUE_MAX < 0
    · simp [hv] at h
    · simp only [hv, if_false, if_true, Outcome.returned.injEq] at h
      obtain ⟨hs, hw, _⟩ := h
      subst hs hw
      exact ⟨_, set_same _ _ _, Int.natCast_nonneg _⟩
  · rw [exec_sem_ctor_int, sem_init_result] at h
    by_cases hv : SEM_VALUE_MAX < to_unsigned num
    · simp [hv] at h
    · simp only [hv, if_false, if_true, Outcome.returned.injEq] at h
      obtain ⟨hs, hw, _⟩ := h
      subst hs hw
      exact ⟨_, set_same _ _ _, Int.natCast_nonneg _⟩

/-- The code of `wait()` once its suspended `sem_wait` returns `r`. -/
theorem exec_resumed_wait {σ : Type} (os : OS σ) (s : sem) (r : Int) (w : σ) :
    exec_resumed os s.wait r w = .returned (r == 0) w [.sem_wait s.m_sem] := rfl

/-- In the model, what `sem_wait` answers on a positive count. -/
theorem sem_wait_result_pos (other : OS SemState) (a : Addr) (w : SemState) (c : Int)
    (hw : w a = some c) (hc : 0 < c) :
    posix_sem other (.sem_wait a) w = some (0, w.set a (some (c - 1))) := by
  simp [posix_sem, hw, hc]

theorem inv_append (s : sem) (w : SemState) (n : Nat) (rs : List WaitReturn) (r : WaitReturn)
    (c : Int) (hw : w s.m_sem = some c) (hc : 0 ≤ c) (hrs : ∀ x ∈ rs, x.in_order)
    (hr : r.in_order) : SemSys.inv s ⟨w, n, rs ++ [r]⟩ := by
  refine ⟨⟨c, hw, hc⟩, ?_⟩
  intro x hx
  rcases List.mem_append.mp hx with h1 | h1
  · exact hrs x h1
  · rw [List.mem_singleton] at h1
    rw [h1]
    exact hr

/-- In the model, every event keeps the count `≥ 0` and the returns in order. -/
theorem inv_step (other : OS SemState) (s : sem) (e : SemEvent) (sys : SemSys)
    (h : sys.inv s) : (sem_step other s e sys).inv s := by
  obtain ⟨⟨c, hw, hc⟩, hrs⟩ := h
  cases e with
  | wait =>
    by_cases hpos : 0 < c
    · simp only [sem_step, exec_wait_pos other s sys.os c hw hpos]
      refine inv_append s _ _ _ _ (c - 1) (set_same _ _ _) (by omega) hrs ?_
      exact ⟨c, hw, hc, fun _ => ⟨hpos, set_same _ _ _⟩, fun hf => by simp at hf⟩
    · simp only [sem_step, exec_wait_blocks other s sys.os c hw (by omega)]
      exact ⟨⟨c, hw, hc⟩, hrs⟩
  | post =>
    by_cases hmax : (SEM_VALUE_MAX : Int) ≤ c
    · simp only [sem_step, exec_post other s sys.os c hw, hmax, if_true]
      exact ⟨⟨c, hw, hc⟩, hrs⟩
    · simp only [sem_step, exec_post other s sys.os c hw, hmax, if_false]
      by_cases hz : sys.waiting = 0
      · simp only [hz, if_true]
        exact ⟨⟨c + 1, set_same _ _ _, by omega⟩, hrs⟩
      · simp only [hz, if_false]
        rw [sem_wait_result_pos other s.m_sem _ (c + 1) (set_same _ _ _) (by omega)]
        simp only [exec_resumed_wait]
        refine inv_append s _ _ _ _ (c + 1 - 1) (set_same _ _ _) (by omega) hrs ?_
        exact ⟨c + 1, set_same _ _ _, by omega,
          fun _ => ⟨by omega, set_same _ _ _⟩, fun hf => by simp at hf⟩
  | interrupt =>
    by_cases hz : sys.waiting = 0
    · simp only [sem_step, hz, if_true]
      exact ⟨⟨c, hw, hc⟩, hrs⟩
    · simp only [sem_step, hz, if_false, exec_resumed_wait]
      refine inv_append s _ _ _ _ c hw hc hrs ?_
      exact ⟨c, hw, hc, fun ht => by simp [SEM_WAIT_INTERRUPTED] at ht, fun _ => hw⟩

/-- In the model, every sequence of events keeps the count `≥ 0` and the returns
in order. -/
theorem inv_run (other : OS SemState) (s : sem) (events : List SemEvent) (sys : SemSys)
    (h : sys.inv s) : (run_events other s events sys).inv s := by
  induction events generalizing sys with
  | nil => exact h
  | cons e rest ih => exact ih _ (inv_step other s e sys h)

/-- C7: whenever `sem()` or `sem(num)` constructs an instance (for every `num`, so
for every `int`), after every finite sequence of `wait()` and `post()` calls on it
by any threads, and of interruptions of suspended waits, the count is `≥ 0`; every
`wait()` that has returned found a count `≥ 0`; if it returned success the count was
`> 0` before and is one lower after; if it returned failure (an interrupted wait)
the count was left as it was. -/
theorem sem_count_never_negative (other : OS SemState) (this : Addr) (num : Int)
    (p : Prog sem) (w0 w1 : SemState) (s : sem) (t : List OsCall) (events : List SemEvent)
    (h_ctor : p = sem.ctor this ∨ p = sem.ctor_int this num)
    (h : exec (posix_sem other) p w0 = .returned s w1 t) :
    (∃ c : Int, (run_events other s events ⟨w1, 0, []⟩).os s.m_sem = some c ∧ 0 ≤ c) ∧
    ∀ r ∈ (run_events other s events ⟨w1, 0, []⟩).returns,
      ∃ cb : Int, r.before = some cb ∧ 0 ≤ cb ∧
        (r.result = true → 0 < cb ∧ r.after = some (cb - 1)) ∧
        (r.result = false → r.after = some cb) := by
  obtain ⟨c1, hc1, hc1'⟩ := count_after_ctor other this num p w0 w1 s t h_ctor h
  have h0 : SemSys.inv s ⟨w1, 0, []⟩ := ⟨⟨c1, hc1, hc1'⟩, fun r hr => by cases hr⟩
  exact inv_run other s events _ h0

theorem sem_count_never_negative_witness :
    (sem.ctor_int 8 1 = sem.ctor 8 ∨ sem.ctor_int 8 1 = sem.ctor_int 8 1) ∧
    exec (posix_sem no_other) (sem.ctor_int 8 1) no_sems =
      .returned ⟨8⟩ (no_sems.set 8 (some 1)) [.sem_init 8 0 1] ∧
    ((∃ c : Int,
      (run_events no_other ⟨8⟩ [.wait, .wait, .post, .post, .wait, .wait, .interrupt]
        ⟨no_sems.set 8 (some 1), 0, []⟩).os (sem.mk 8).m_sem = some c ∧ 0 ≤ c) ∧
    ∀ r ∈ (run_events no_other ⟨8⟩ [.wait, .wait, .post, .post, .wait, .wait, .interrupt]
        ⟨no_sems.set 8 (some 1), 0, []⟩).returns,
      ∃ cb : Int, r.before = some cb ∧ 0 ≤ cb ∧
        (r.result = true → 0 < cb ∧ r.after = some (cb - 1)) ∧
        (r.result = false → r.after = some cb)) :=
  ⟨Or.inr rfl, rfl,
    sem_count_never_negative no_other 8 1 (sem.ctor_int 8 1) no_sems (no_sems.set 8 (some 1))
      ⟨8⟩ [.sem_init 8 0 1] [.wait, .wait, .post, .post, .wait, .wait, .interrupt]
      (Or.inr rfl) rfl⟩

/-- In the model, on `sem(1)` the calls wait, wait, post, post, wait end at count 0:
the second wait is suspended and the first post releases it. -/
theorem run_events_handoff :
    (run_events no_other ⟨8⟩ [.wait, .wait, .post, .post, .wait]
      ⟨no_sems.set 8 (some 1), 0, []⟩).os 8 = some 0 ∧
    (run_events no_other ⟨8⟩ [.wait, .wait, .post, .post, .wait]
      ⟨no_sems.set 8 (some 1), 0, []⟩).waiting = 0 ∧
    (run_events no_other ⟨8⟩ [.wait, .wait, .post, .post, .wait]
      ⟨no_sems.set 8 (some 1), 0, []⟩).returns =
      [⟨true, some 1, some 0⟩, ⟨true, some 1, some 0⟩, ⟨true, some 1, some 0⟩] := by
  decide

/-- In the model, on `sem(0)` a wait that is interrupted returns failure at count 0. -/
theorem run_events_interrupted :
    (run_events no_other ⟨8⟩ [.wait, .interrupt] ⟨no_sems.set 8 (some 0), 0, []⟩).os 8 =
      some 0 ∧
    (run_events no_other ⟨8⟩ [.wait, .interrupt] ⟨no_sems.set 8 (some 0), 0, []⟩).returns =
      [⟨false, some 0, some 0⟩] := by
  decide

/-- C10: for every negative `int` num, `sem(num)` passes `num + 2^32` to `sem_init`
as the initial count; this is at least `2^31`, above `SEM_VALUE_MAX = 2^31 - 1`; so
on every operating system whose `sem_init` fails for a value above `SEM_VALUE_MAX`
the constructor throws after that one call and yields no instance. -/
theorem negative_initial_count_is_rejected {σ : Type} (os : OS σ) (this : Addr) (num : Int)
    (w : σ) (h_int : is_int num) (h_neg : num < 0)
    (h_os : ∀ (s : Addr) (pshared : Int) (value : Nat) (w : σ), SEM_VALUE_MAX < value →
      ∃ (r : Int) (w' : σ), os (.sem_init s pshared value) w = some (r, w') ∧ r ≠ 0) :
    (to_unsigned num : Int) = num + 2 ^ 32 ∧
    2 ^ 31 ≤ to_unsigned num ∧
    SEM_VALUE_MAX = 2 ^ 31 - 1 ∧
    SEM_VALUE_MAX < to_unsigned num ∧
    (∃ w' : σ, exec os (sem.ctor_int this num) w =
      .thrown w' [.sem_init this 0 (to_unsigned num)]) ∧
    ∀ (s : sem) (w' : σ) (t : List OsCall),
      exec os (sem.ctor_int this num) w ≠ .returned s w' t := by
  have hu := to_unsigned_of_neg num h_neg h_int
  obtain ⟨h1, _⟩ := h_int
  have hmaxv : SEM_VALUE_MAX = 2147483647 := by decide
  have hge : 2 ^ 31 ≤ to_unsigned num := by
    have : (2 ^ 31 : Int) ≤ (to_unsigned num : Int) := by rw [hu]; omega
    exact_mod_cast this
  have hgt : SEM_VALUE_MAX < to_unsigned num := by omega
  obtain ⟨r, w', hcall, hr⟩ := h_os this 0 (to_unsigned num) w hgt
  have hex : exec os (sem.ctor_int this num) w = .thrown w' [.sem_init this 0 (to_unsigned num)] := by
    rw [exec_sem_ctor_int, hcall]
    simp [hr]
  refine ⟨hu, hge, rfl, hgt, ⟨w', hex⟩, ?_⟩
  intro s w'' t
  rw [hex]
  simp

theorem negative_initial_count_is_rejected_witness :
    is_int (-1) ∧ (-1 : Int) < 0 ∧
    (∀ (s : Addr) (pshared : Int) (value : Nat) (w : SemState), SEM_VALUE_MAX < value →
      ∃ (r : Int) (w' : SemState),
        posix_sem no_other (.sem_init s pshared value) w = some (r, w') ∧ r ≠ 0) ∧
    ((to_unsigned (-1) : Int) = -1 + 2 ^ 32 ∧
    2 ^ 31 ≤ to_unsigned (-1) ∧
    SEM_VALUE_MAX = 2 ^ 31 - 1 ∧
    SEM_VALUE_MAX < to_unsigned (-1) ∧
    (∃ w' : SemState, exec (posix_sem no_other) (sem.ctor_int 8 (-1)) no_sems =
      .thrown w' [.sem_init 8 0 (to_unsigned (-1))]) ∧
    ∀ (s : sem) (w' : SemState) (t : List OsCall),
      exec (posix_sem no_other) (sem.ctor_int 8 (-1)) no_sems ≠ .returned s w' t) :=
  ⟨by decide, by decide,
    fun s pshared value w hv => ⟨-1, w, by simp [posix_sem, hv], by decide⟩,
    negative_initial_count_is_rejected (posix_sem no_other) 8 (-1) no_sems (by decide) (by decide)
      (fun s pshared value w hv => ⟨-1, w, by simp [posix_sem, hv], by decide⟩)⟩

end Locker
